import Mathlib

/-!
Verification of the Vite asset-loading module (`src/app/domain/web/vite.py`).

The module's pure logic is embedded shallowly:
* `ViteConfig` mirrors the pydantic `ViteConfig` model (fields and defaults).
* A manifest (`dict[str, Any]` in Python, holding Vite manifest entries) is an
  association list from keys to `ManifestEntry` records; `manifestLookup` is
  first-match lookup, mirroring `dict` key lookup.
* `urljoin` models `urllib.parse.urljoin` (RFC 3986 relative resolution) for
  URLs without query strings, fragments or dot-segments, which covers every
  use in this module: scheme and authority parsing, absolute-path references,
  and relative-path merging.
* The unbounded Python recursion of `ViteAssetLoader.generate_vite_asset` is
  embedded with an explicit fuel parameter; running out of fuel yields the
  distinguished result `GenError.outOfFuel`, and a `RuntimeError` for a key
  missing from the manifest is `GenError.notFound`.
* File I/O (`Path.open`) and `json.loads` in `parse_manifest` are abstracted
  as an environment: the optional content of `{static_dir}/manifest.json` and
  an abstract JSON parse function.
-/

/-- Python `str.join`: `sep.join(l)` — empty for `[]`, the element itself for a
singleton, otherwise the elements interleaved with `sep`. -/
def strJoin (sep : String) : List String → String
  | [] => ""
  | [s] => s
  | s :: rest => s ++ sep ++ strJoin sep rest

/-- Valid characters of a URL scheme after the first (RFC 3986 / `urllib.parse`). -/
def isSchemeTailChar (c : Char) : Bool :=
  c.isAlpha || c.isDigit || c = '+' || c = '-' || c = '.'

/-- Split a leading `scheme:` off a URL reference, if present.  A scheme must
be non-empty, start with a letter, and be terminated by a colon that occurs
before any non-scheme character (in particular before any slash). -/
def splitSchemeChars (s : List Char) : Option (List Char) × List Char :=
  let pre := s.takeWhile isSchemeTailChar
  match s.dropWhile isSchemeTailChar with
  | ':' :: r2 =>
    match pre with
    | [] => (none, s)
    | c :: _ => if c.isAlpha then (some pre, r2) else (none, s)
  | _ => (none, s)

/-- A URL reference split into scheme, authority (netloc) and path, the parts
of RFC 3986 resolution that `urllib.parse.urljoin` uses on the URLs occurring
in this module (no query strings or fragments). -/
structure UrlRef where
  scheme : Option (List Char)
  auth : Option (List Char)
  path : List Char

/-- Parse a URL reference: optional `scheme:`, optional `//authority`, path. -/
def parseUrlRef (s : List Char) : UrlRef :=
  let (sch, rest) := splitSchemeChars s
  match rest with
  | '/' :: '/' :: r2 =>
    { scheme := sch
      auth := some (r2.takeWhile (fun c => c ≠ '/'))
      path := r2.dropWhile (fun c => c ≠ '/') }
  | _ => { scheme := sch, auth := none, path := rest }

/-- Remove everything after the last slash of a path (RFC 3986 merge helper:
"all but the last segment of the base URI's path"). -/
def dropLastSeg (p : List Char) : List Char :=
  (p.reverse.dropWhile (fun c => c ≠ '/')).reverse

/-- RFC 3986 §5.3 `merge`: resolve a relative path against a base path. -/
def mergePaths (hasAuth : Bool) (bpath rpath : List Char) : List Char :=
  if hasAuth && bpath.isEmpty then '/' :: rpath else dropLastSeg bpath ++ rpath

/-- RFC 3986 §5.2.2 transform-references, as performed by
`urllib.parse.urljoin` on the query-free, dot-segment-free URLs used here. -/
def resolveRef (b r : UrlRef) : UrlRef :=
  match r.scheme with
  | some _ => r
  | none =>
    match r.auth with
    | some _ => { scheme := b.scheme, auth := r.auth, path := r.path }
    | none =>
      let p :=
        if r.path.isEmpty then b.path
        else if r.path.head? = some '/' then r.path
        else mergePaths b.auth.isSome b.path r.path
      { scheme := b.scheme, auth := b.auth, path := p }

/-- Recompose a resolved URL reference into a string's characters. -/
def renderUrl (u : UrlRef) : List Char :=
  (match u.scheme with | some s => s ++ [':'] | none => []) ++
    (match u.auth with | some a => '/' :: '/' :: a | none => []) ++ u.path

/-- Model of `urllib.parse.urljoin` on the URLs used by this module. -/
def urljoin (base url : String) : String :=
  ⟨renderUrl (resolveRef (parseUrlRef base.data) (parseUrlRef url.data))⟩

/-- Model of `ViteConfig` (pydantic): fields and defaults as in the source. -/
structure ViteConfig where
  hot_reload : Bool := false
  is_react : Bool := false
  static_url : String := "/static/"
  static_dir : String
  host : String := "localhost"
  protocol : String := "http"
  port : Nat := 3000
  run_command : List String := ["npm", "run", "dev"]
  build_command : List String := ["npm", "run", "build"]

/-- One value of the Vite manifest mapping: the entry record fields the
module reads (`file`, `css`, `imports`) together with the remaining fields of
the documented manifest schema.  An `Option` field is `none` when the JSON
object lacks the corresponding key. -/
structure ManifestEntry where
  file : String
  src : Option String := none
  isEntry : Option Bool := none
  css : Option (List String) := none
  imports : Option (List String) := none
  dynamicImports : Option (List String) := none
  assets : Option (List String) := none

/-- The parsed manifest: a mapping from asset source path to entry. -/
abbrev Manifest := List (String × ManifestEntry)

/-- Python `dict` key lookup on the manifest (`path in manifest`,
`manifest[path]`). -/
def manifestLookup : Manifest → String → Option ManifestEntry
  | [], _ => none
  | (k, e) :: rest, key => if k = key then some e else manifestLookup rest key

/-- Embeds `ViteAssetLoader._script_tag`: `<script {attrs} src="{src}"></script>`,
where the attributes render as space-separated `key="value"` pairs (empty
when no attribute dict is given). -/
def script_tag (src : String) (attrs : Option (List (String × String))) : String :=
  let attrs_str := match attrs with
    | none => ""
    | some l => strJoin " " (l.map (fun kv => kv.1 ++ "=\"" ++ kv.2 ++ "\""))
  "<script " ++ attrs_str ++ " src=\"" ++ src ++ "\"></script>"

/-- Embeds `ViteAssetLoader._style_tag`: `<link rel="stylesheet" href="{href}" />`. -/
def style_tag (href : String) : String :=
  "<link rel=\"stylesheet\" href=\"" ++ href ++ "\" />"

/-- Embeds `ViteAssetLoader._vite_server_url`: joins `protocol://host:port` with the
static URL segment and the optional asset path via `urljoin`. -/
def vite_server_url (cfg : ViteConfig) (path : Option String) : String :=
  let base_path := cfg.protocol ++ "://" ++ cfg.host ++ ":" ++ toString cfg.port
  urljoin base_path (urljoin cfg.static_url (path.getD ""))

/-- The default script attributes `{"type": "module", "async": "", "defer": ""}`. -/
def defaultScriptAttrs : List (String × String) :=
  [("type", "module"), ("async", ""), ("defer", "")]

/-- Python truthiness of the `scripts_attrs` argument (`if not scripts_attrs`):
falsy when it is `None` or the empty dict. -/
def attrsFalsy : Option (List (String × String)) → Bool
  | none => true
  | some [] => true
  | some (_ :: _) => false

/-- Failures of `generate_vite_asset`: the `RuntimeError` raised for a path
missing from the manifest, and exhaustion of the termination fuel of the
embedding (the Python original recurses without any bound). -/
inductive GenError where
  | notFound (path : String)
  | outOfFuel
deriving DecidableEq

/-- The Python `for` loop that appends one recursive result per list element,
with exception propagation: stops at the first error. -/
def mapExcept (f : α → Except ε β) : List α → Except ε (List β)
  | [] => .ok []
  | x :: rest =>
    match f x with
    | .error e => .error e
    | .ok y =>
      match mapExcept f rest with
      | .error e => .error e
      | .ok ys => .ok (y :: ys)

/-- Embeds `ViteAssetLoader.generate_vite_asset` with explicit fuel.  In hot-reload mode
it returns a single dev-server script tag.  Otherwise it looks the path up in
the manifest (raising `notFound` when absent), defaults falsy `scripts_attrs`
to `defaultScriptAttrs`, then joins with newlines: one style tag per entry of
`css`, the recursively generated tags of each entry of `imports` (passing the
defaulted attributes down, as the source does), and the entry's own script
tag. -/
def generate_vite_asset (cfg : ViteConfig) (m : Manifest) :
    Nat → String → Option (List (String × String)) → Except GenError String
  | 0, _, _ => .error .outOfFuel
  | fuel + 1, path, scripts_attrs =>
    if cfg.hot_reload then
      .ok (script_tag (vite_server_url cfg (some path)) (some defaultScriptAttrs))
    else
      match manifestLookup m path with
      | none => .error (.notFound path)
      | some entry =>
        let sa := if attrsFalsy scripts_attrs then some defaultScriptAttrs else scripts_attrs
        let cssTags := (entry.css.getD []).map (fun p => style_tag (urljoin cfg.static_url p))
        match mapExcept (fun ip => generate_vite_asset cfg m fuel ip sa) (entry.imports.getD []) with
        | .error e => .error e
        | .ok importTags =>
          .ok (strJoin "\n"
            (cssTags ++ importTags ++ [script_tag (urljoin cfg.static_url entry.file) sa]))

/-- Embeds `ViteAssetLoader.generate_vite_ws_client`: empty string unless
hot-reload is enabled, else a `type="module"` script tag for the dev-server
client path `@vite/client`. -/
def generate_vite_ws_client (cfg : ViteConfig) : String :=
  if cfg.hot_reload then
    script_tag (vite_server_url cfg (some "@vite/client")) (some [("type", "module")])
  else ""

/-- Body of the React fast-refresh inline script block returned by
`generate_vite_react_hmr`, with the dev-server URL interpolated where the
source has `{self._vite_server_url()}` (escapes: `\x27` is an apostrophe,
`\x7b\x7d` is a literal brace pair). -/
def reactRefreshBlock (url : String) : String :=
  "\n                <script type=\"module\">\n                import RefreshRuntime from \x27" ++
    url ++
    "@react-refresh\x27\n                RefreshRuntime.injectIntoGlobalHook(window)\n                window.$RefreshReg$ = () => \x7b\x7d\n                window.$RefreshSig$ = () => (type) => type\n                window.__vite_plugin_react_preamble_installed__=true\n                </script>\n                "

/-- Embeds `ViteAssetLoader.generate_vite_react_hmr`: the inline React
fast-refresh script block when both `is_react` and `hot_reload` are set,
otherwise the empty string. -/
def generate_vite_react_hmr (cfg : ViteConfig) : String :=
  if cfg.is_react && cfg.hot_reload then reactRefreshBlock (vite_server_url cfg none)
  else ""

/-- Embeds `ViteTemplateEngine.hmr_client`: the react-refresh tag and the
dev-client tag joined with a newline (`"\n".join([...])`). -/
def hmr_client (cfg : ViteConfig) : String :=
  strJoin "\n" [generate_vite_react_hmr cfg, generate_vite_ws_client cfg]

/-- Environment of `parse_manifest`: the content of the file at
`{static_dir}/manifest.json` if it exists (`Path.open`/`read` succeed), and
the external `json.loads`, abstracted as a parse function that yields the
decoded mapping or fails. -/
structure FsEnv where
  manifest_file : Option String
  json_loads : String → Option Manifest

/-- How `parse_manifest` fails: `osError` is the unwrapped exception escaping
`Path.open` when the file is missing or unreadable; `runtimeError` is the
`RuntimeError` the code raises around a `json.loads` failure. -/
inductive ManifestLoadError where
  | osError
  | runtimeError
deriving DecidableEq

/-- Embeds `ViteAssetLoader.parse_manifest`: with hot-reload enabled it
returns the empty mapping without touching the file; otherwise it reads the
manifest file (an unreadable or missing file raises the I/O error unwrapped,
since only the `json.loads` call sits inside the `try` block) and parses it,
wrapping a parse failure in a `RuntimeError`. -/
def parse_manifest (cfg : ViteConfig) (env : FsEnv) : Except ManifestLoadError Manifest :=
  if cfg.hot_reload then .ok []
  else
    match env.manifest_file with
    | none => .error .osError
    | some content =>
      match env.json_loads content with
      | none => .error .runtimeError
      | some m => .ok m

/-- The loader's process-wide state: the parsed manifest stored in the class
variable `ViteAssetLoader._manifest`. -/
structure LoaderState where
  manifest : Manifest

/-- Embeds `generate_vite_asset` as an operation on the loader's stored state:
the method only reads `self._manifest` and contains no assignment to it, so
the state it returns is the state it was given. -/
def generate_vite_asset_stateful (cfg : ViteConfig) (st : LoaderState) (fuel : Nat)
    (path : String) (scripts_attrs : Option (List (String × String))) :
    Except GenError String × LoaderState :=
  (generate_vite_asset cfg st.manifest fuel path scripts_attrs, st)

/-- Claim C1's description of manifest-mode `generate_vite_asset`, written
from the claim's words: css style tags, then the recursively generated tags
of each import (same function, same attribute overrides), then one script tag
for the entry's own file "using the given attribute overrides if provided,
else `defaultScriptAttrs`" — where provided means any overrides argument was
passed, including an empty one. -/
def generateAssetTagsClaimed (cfg : ViteConfig) (m : Manifest) :
    Nat → String → Option (List (String × String)) → Except GenError String
  | 0, _, _ => .error .outOfFuel
  | fuel + 1, path, scripts_attrs =>
    match manifestLookup m path with
    | none => .error (.notFound path)
    | some entry =>
      let cssTags := (entry.css.getD []).map (fun p => style_tag (urljoin cfg.static_url p))
      match mapExcept (fun ip => generateAssetTagsClaimed cfg m fuel ip scripts_attrs)
          (entry.imports.getD []) with
      | .error e => .error e
      | .ok importTags =>
        .ok (strJoin "\n" (cssTags ++ importTags ++
          [script_tag (urljoin cfg.static_url entry.file)
            (some (scripts_attrs.getD defaultScriptAttrs))]))

/-- Claim C1 as amended: identical to `generateAssetTagsClaimed` except that
the entry's own script tag uses the given attribute overrides only when they
are provided and non-empty (Python truthiness), else the default attributes. -/
def generateAssetTagsAmended (cfg : ViteConfig) (m : Manifest) :
    Nat → String → Option (List (String × String)) → Except GenError String
  | 0, _, _ => .error .outOfFuel
  | fuel + 1, path, scripts_attrs =>
    match manifestLookup m path with
    | none => .error (.notFound path)
    | some entry =>
      let cssTags := (entry.css.getD []).map (fun p => style_tag (urljoin cfg.static_url p))
      match mapExcept (fun ip => generateAssetTagsAmended cfg m fuel ip scripts_attrs)
          (entry.imports.getD []) with
      | .error e => .error e
      | .ok importTags =>
        .ok (strJoin "\n" (cssTags ++ importTags ++
          [script_tag (urljoin cfg.static_url entry.file)
            (if attrsFalsy scripts_attrs then some defaultScriptAttrs else scripts_attrs)]))

/-- The import graph of a manifest: an edge from `a` to `b` when `a` is a key
whose entry lists `b` in `imports`. -/
def Edge (m : Manifest) (a b : String) : Prop :=
  ∃ e, manifestLookup m a = some e ∧ b ∈ e.imports.getD []

/-- Reachability in the import graph (reflexive-transitive closure). -/
def Reaches (m : Manifest) : String → String → Prop :=
  Relation.ReflTransGen (Edge m)

/-- No key reachable from `p` lies on an import cycle. -/
def AcyclicFrom (m : Manifest) (p : String) : Prop :=
  ∀ q, Reaches m p q → ¬ Relation.TransGen (Edge m) q q

/-- Some key reachable from `p` lies on an import cycle. -/
def CycleReachableFrom (m : Manifest) (p : String) : Prop :=
  ∃ q, Reaches m p q ∧ Relation.TransGen (Edge m) q q

/-- The manifest invariant stated by the specification: every string in an
entry's `imports` list is itself a key of the manifest. -/
def ImportsClosed (m : Manifest) : Prop :=
  ∀ k e, manifestLookup m k = some e → ∀ i ∈ e.imports.getD [], (manifestLookup m i).isSome

/-- Every string occurring in some entry's `imports` list. -/
def allImports (m : Manifest) : List String :=
  m.flatMap (fun kv => kv.2.imports.getD [])

/-- The `engine` argument of `ViteTemplateConfig`: either the engine class
(to be instantiated later) or an already constructed engine instance.  Engine
object identities are modelled as natural numbers. -/
inductive EngineArg where
  | cls
  | inst (e : Nat)

/-- Whether `inspect.isclass(engine)` holds. -/
def engineIsClass : EngineArg → Bool
  | .cls => true
  | .inst _ => false

/-- The `directory` argument of `ViteTemplateConfig`: `None`, a single path,
or a list of paths. -/
inductive DirArg where
  | none
  | str (s : String)
  | lst (l : List String)

/-- Python truthiness of `not self.directory`: `None`, the empty string and
the empty list are falsy. -/
def dirFalsy : DirArg → Bool
  | .none => true
  | .str s => s == ""
  | .lst l => l.isEmpty

/-- Model of a `ViteTemplateConfig` object: the engine argument, the
directory, and whether a callable `engine_callback` was supplied. -/
structure TemplateConfigModel where
  engine : EngineArg
  directory : DirArg
  engine_callback : Bool

/-- The `ImproperlyConfiguredException` raised by `__post_init__`. -/
inductive ConfigError where
  | improperlyConfigured
deriving DecidableEq

/-- Embeds `ViteTemplateConfig.__post_init__`, which runs at dataclass
construction time: raises when the engine is given as a class and the
directory is falsy. -/
def vite_template_post_init (c : TemplateConfigModel) : Except ConfigError Unit :=
  if engineIsClass c.engine && dirFalsy c.directory then .error .improperlyConfigured
  else .ok ()

/-- Observable effects of engine construction on a `ViteTemplateConfig`
object: the `functools.cached_property` cache slot, a supply of fresh object
identities, and counters of class instantiations and callback invocations. -/
structure EngineCache where
  cache : Option Nat
  nextId : Nat
  constructions : Nat
  callbackRuns : Nat

/-- Embeds `ViteTemplateConfig.to_engine`: instantiates the engine class (a
fresh object) when the engine was given as a class, else uses the given
instance; then invokes the callback on the result when one was supplied. -/
def to_engine (c : TemplateConfigModel) (s : EngineCache) : Nat × EngineCache :=
  let r :=
    match c.engine with
    | .cls => (s.nextId, { s with nextId := s.nextId + 1, constructions := s.constructions + 1 })
    | .inst e0 => (e0, s)
  if c.engine_callback then (r.1, { r.2 with callbackRuns := r.2.callbackRuns + 1 })
  else r

/-- Embeds `ViteTemplateConfig.engine_instance`, a `functools.cached_property`:
the first access computes `to_engine` and stores the result in the instance's
cache slot; an access that finds the slot filled returns the stored object
unchanged. -/
def engine_instance (c : TemplateConfigModel) (s : EngineCache) : Nat × EngineCache :=
  match s.cache with
  | some e => (e, s)
  | none =>
    let r := to_engine c s
    (r.1, { r.2 with cache := some r.1 })

/-- Production-mode configuration (hot reload off) with the default static
URL, as in the C2 example of the specification. -/
def cfgProd : ViteConfig := { hot_reload := false, static_url := "/static/", static_dir := "public" }

/-- The manifest of the specification's C2 example. -/
def mC2 : Manifest :=
  [("main.js", { file := "assets/main.123.js", css := some ["assets/main.css"] })]

/-- Development-mode configuration (hot reload on) with all other defaults,
as in the C4 example of the specification. -/
def cfgDev : ViteConfig := { hot_reload := true, static_dir := "public" }

/-- A one-entry manifest with an empty `css`/`imports`, used to exhibit the
behaviour of an explicitly provided empty attribute-override dict. -/
def mC1 : Manifest := [("main.js", { file := "x.js" })]

/-- A diamond-shaped import graph: `top.js` imports `l.js` and `r.js`, both
of which import `shared.js`. -/
def mDiamond : Manifest :=
  [("top.js", { file := "assets/top.js", imports := some ["l.js", "r.js"] }),
   ("l.js", { file := "assets/l.js", imports := some ["shared.js"] }),
   ("r.js", { file := "assets/r.js", imports := some ["shared.js"] }),
   ("shared.js", { file := "assets/shared.js" })]

/-- A one-entry manifest with no imports: its import graph is acyclic. -/
def mAcy : Manifest := [("a.js", { file := "assets/a.js" })]

/-- A manifest whose single entry imports itself: a reachable import cycle. -/
def mCyc : Manifest := [("a.js", { file := "assets/a.js", imports := some ["a.js"] })]

/-- Environment with no manifest file on disk. -/
def envMissing : FsEnv := { manifest_file := none, json_loads := fun _ => none }

/-- Environment whose manifest file exists but holds invalid JSON. -/
def envBad : FsEnv := { manifest_file := some "not json", json_loads := fun _ => none }

/-- Environment whose manifest file parses to the empty mapping. -/
def envGood : FsEnv := { manifest_file := some "\x7b\x7d", json_loads := fun _ => some [] }

/-- A template config given the engine as a class, with a directory and a
callback, for exercising `engine_instance`. -/
def tcClsExample : TemplateConfigModel :=
  { engine := .cls, directory := .str "templates", engine_callback := true }

/-- A fresh cache state: nothing cached, no effects recorded yet. -/
def freshEngineCache : EngineCache :=
  { cache := none, nextId := 0, constructions := 0, callbackRuns := 0 }

/-- A three-part string concatenation whose first part is non-empty is not
the empty string. -/
theorem append3_ne_empty (a b c : String) (ha : a.data ≠ []) : a ++ b ++ c ≠ "" := by
  intro h
  have h2 := congrArg String.data h
  rw [String.data_append, String.data_append] at h2
  rcases List.append_eq_nil.mp h2 with ⟨h3, -⟩
  rcases List.append_eq_nil.mp h3 with ⟨h4, -⟩
  exact ha h4

/-- The React fast-refresh block starts with a fixed non-empty literal, so it
is never the empty string. -/
theorem reactRefreshBlock_ne_empty (url : String) : reactRefreshBlock url ≠ "" := by
  unfold reactRefreshBlock
  exact append3_ne_empty _ _ _ (by decide)

/-- A script tag with the default attributes, written out. -/
theorem script_tag_default (src : String) :
    script_tag src (some defaultScriptAttrs) =
      "<script type=\"module\" async=\"\" defer=\"\" src=\"" ++ src ++ "\"></script>" := rfl

/-- Congruence for `mapExcept` under a pointwise-equal function. -/
theorem mapExcept_congr {α ε β : Type} {f g : α → Except ε β} :
    ∀ {l : List α}, (∀ x ∈ l, f x = g x) → mapExcept f l = mapExcept g l := by
  intro l
  induction l with
  | nil => intro _; rfl
  | cons x rest ih =>
    intro h
    simp only [mapExcept]
    rw [h x (List.mem_cons_self x rest), ih (fun y hy => h y (List.mem_cons_of_mem x hy))]

/-- If no element of the list maps to a given error, `mapExcept` does not
produce that error. -/
theorem mapExcept_ne_error {α ε β : Type} {f : α → Except ε β} {er : ε} :
    ∀ {l : List α}, (∀ x ∈ l, f x ≠ .error er) → mapExcept f l ≠ .error er := by
  intro l
  induction l with
  | nil => intro _ hc; exact Except.noConfusion hc
  | cons x rest ih =>
    intro h
    simp only [mapExcept]
    cases hfx : f x with
    | error e =>
      intro hc
      injection hc with he
      exact h x (List.mem_cons_self x rest) (by rw [hfx, he])
    | ok y =>
      cases hrest : mapExcept f rest with
      | error e =>
        intro hc
        injection hc with he
        exact ih (fun z hz => h z (List.mem_cons_of_mem x hz)) (by rw [hrest, he])
      | ok ys => exact fun hc => Except.noConfusion hc

/-- C2: for the configuration `{hot_reload: false, static_url: "/static/"}`
and the manifest `{"main.js": {"file": "assets/main.123.js", "css":
["assets/main.css"]}}`, `generate_vite_asset "main.js"` with no attribute
overrides returns exactly the stylesheet link tag, a newline, and the default
module script tag. -/
theorem c2_manifest_example :
    generate_vite_asset cfgProd mC2 1 "main.js" none =
      .ok "<link rel=\"stylesheet\" href=\"/static/assets/main.css\" />\n<script type=\"module\" async=\"\" defer=\"\" src=\"/static/assets/main.123.js\"></script>" := rfl

/-- C4: with hot-reload enabled, `generate_vite_asset` never consults the
manifest and never fails: for every manifest, fuel, path and attribute
override it returns exactly one script tag with attributes
`{type: module, async, defer}` whose `src` is the dev-server base URL joined
(via `urljoin`) with the static URL segment and the path. -/
theorem c4_hot_reload_tag (cfg : ViteConfig) (hcfg : cfg.hot_reload = true) (m : Manifest)
    (f : Nat) (p : String) (sa : Option (List (String × String))) :
    generate_vite_asset cfg m (f + 1) p sa =
      .ok ("<script type=\"module\" async=\"\" defer=\"\" src=\"" ++
        vite_server_url cfg (some p) ++ "\"></script>") := by
  simp only [generate_vite_asset, hcfg, if_true, script_tag_default]

/-- Witness for C4 at the specification's example: hot reload on, host
`localhost`, port 3000, static URL `/static/`, path `main.js`. -/
theorem c4_hot_reload_tag_witness :
    cfgDev.hot_reload = true ∧
    generate_vite_asset cfgDev [] 1 "main.js" none =
      .ok "<script type=\"module\" async=\"\" defer=\"\" src=\"http://localhost:3000/static/main.js\"></script>" :=
  ⟨rfl, (c4_hot_reload_tag cfgDev rfl [] 0 "main.js" none).trans rfl⟩

/-- C5: in manifest mode, a path absent from the manifest makes
`generate_vite_asset` fail with the not-found error, producing no tags, and
the loader's stored manifest state is returned unchanged. -/
theorem c5_not_found_error (cfg : ViteConfig) (st : LoaderState) (f : Nat) (p : String)
    (sa : Option (List (String × String))) (hcfg : cfg.hot_reload = false)
    (hp : manifestLookup st.manifest p = none) :
    generate_vite_asset_stateful cfg st (f + 1) p sa = (.error (.notFound p), st) := by
  simp [generate_vite_asset_stateful, generate_vite_asset, hcfg, hp]

/-- Witness for C5: looking up `missing.js` in an empty stored manifest. -/
theorem c5_not_found_error_witness :
    cfgProd.hot_reload = false ∧
    manifestLookup ([] : Manifest) "missing.js" = none ∧
    generate_vite_asset_stateful cfgProd ⟨[]⟩ 1 "missing.js" none =
      (.error (.notFound "missing.js"), ⟨[]⟩) :=
  ⟨rfl, rfl, c5_not_found_error cfgProd ⟨[]⟩ 0 "missing.js" none rfl rfl⟩

/-- C7: with hot-reload disabled both `generate_vite_ws_client` and
`generate_vite_react_hmr` return the empty string regardless of the React
flag, and `generate_vite_react_hmr` is non-empty exactly when both the
hot-reload and is-React flags are true. -/
theorem c7_hmr_tag_flags (cfg : ViteConfig) :
    (cfg.hot_reload = false →
      generate_vite_ws_client cfg = "" ∧ generate_vite_react_hmr cfg = "") ∧
    (generate_vite_react_hmr cfg ≠ "" ↔ cfg.hot_reload = true ∧ cfg.is_react = true) := by
  refine ⟨fun h => ⟨by simp [generate_vite_ws_client, h], by simp [generate_vite_react_hmr, h]⟩, ?_⟩
  cases hr : cfg.hot_reload <;> cases hir : cfg.is_react <;>
    simp [generate_vite_react_hmr, hr, hir]
  exact reactRefreshBlock_ne_empty _

/-- Witness for C7: production config (hot reload off). -/
theorem c7_hmr_tag_flags_witness :
    generate_vite_ws_client cfgProd = "" ∧ generate_vite_react_hmr cfgProd = "" :=
  (c7_hmr_tag_flags cfgProd).1 rfl

/-- C8: constructing a `ViteTemplateConfig` with the engine given as a class
and no directory raises the configuration error; with an engine instance, or
with a class plus a non-empty (truthy) directory, construction succeeds. -/
theorem c8_post_init_directory :
    (∀ cb, vite_template_post_init ⟨.cls, .none, cb⟩ = .error .improperlyConfigured) ∧
    (∀ e d cb, vite_template_post_init ⟨.inst e, d, cb⟩ = .ok ()) ∧
    (∀ d cb, dirFalsy d = false → vite_template_post_init ⟨.cls, d, cb⟩ = .ok ()) := by
  refine ⟨fun cb => rfl, fun e d cb => rfl, fun d cb hd => ?_⟩
  simp [vite_template_post_init, engineIsClass, hd]

/-- Witness for C8: a missing directory, an instance engine, and a class
engine with the directory `"templates"`. -/
theorem c8_post_init_directory_witness :
    vite_template_post_init ⟨.cls, .none, false⟩ = .error .improperlyConfigured ∧
    vite_template_post_init ⟨.inst 7, .none, false⟩ = .ok () ∧
    vite_template_post_init ⟨.cls, .str "templates", false⟩ = .ok () :=
  ⟨c8_post_init_directory.1 false, c8_post_init_directory.2.1 7 .none false,
    c8_post_init_directory.2.2 (.str "templates") false rfl⟩

/-- C9: `engine_instance` is memoized.  On a fresh object (empty cache slot)
the first access caches its result, instantiates the class exactly once (and
only if the engine was given as a class, in which case the result is the
fresh object; otherwise it is the given instance), runs the callback exactly
once when one is supplied, and a second access returns the identical cached
object with no state change; in general any access that finds the cache slot
filled returns the stored object unchanged. -/
theorem c9_engine_instance_memoized (c : TemplateConfigModel) (s : EngineCache)
    (hs : s.cache = none) :
    (engine_instance c s).2.cache = some (engine_instance c s).1 ∧
    (engine_instance c s).2.constructions =
      s.constructions + (if engineIsClass c.engine then 1 else 0) ∧
    (engine_instance c s).2.callbackRuns =
      s.callbackRuns + (if c.engine_callback then 1 else 0) ∧
    (c.engine = .cls → (engine_instance c s).1 = s.nextId) ∧
    (∀ e0, c.engine = .inst e0 → (engine_instance c s).1 = e0) ∧
    engine_instance c (engine_instance c s).2 =
      ((engine_instance c s).1, (engine_instance c s).2) ∧
    (∀ (s2 : EngineCache) (e : Nat), s2.cache = some e → engine_instance c s2 = (e, s2)) := by
  refine ⟨?_, ?_, ?_, ?_, ?_, ?_, fun s2 e he => by simp [engine_instance, he]⟩ <;>
    cases hce : c.engine <;> cases hcb : c.engine_callback <;>
      simp [engine_instance, to_engine, hs, hce, hcb, engineIsClass]

/-- Witness for C9: class engine with a callback, starting from the fresh
cache state. -/
theorem c9_engine_instance_memoized_witness :
    (engine_instance tcClsExample freshEngineCache).2.cache =
      some (engine_instance tcClsExample freshEngineCache).1 ∧
    (engine_instance tcClsExample freshEngineCache).2.constructions =
      freshEngineCache.constructions + (if engineIsClass tcClsExample.engine then 1 else 0) ∧
    (engine_instance tcClsExample freshEngineCache).2.callbackRuns =
      freshEngineCache.callbackRuns + (if tcClsExample.engine_callback then 1 else 0) ∧
    (tcClsExample.engine = .cls →
      (engine_instance tcClsExample freshEngineCache).1 = freshEngineCache.nextId) ∧
    (∀ e0, tcClsExample.engine = .inst e0 →
      (engine_instance tcClsExample freshEngineCache).1 = e0) ∧
    engine_instance tcClsExample (engine_instance tcClsExample freshEngineCache).2 =
      ((engine_instance tcClsExample freshEngineCache).1,
        (engine_instance tcClsExample freshEngineCache).2) ∧
    (∀ (s2 : EngineCache) (e : Nat), s2.cache = some e →
      engine_instance tcClsExample s2 = (e, s2)) :=
  c9_engine_instance_memoized tcClsExample freshEngineCache rfl

/-- C10: `hmr_client` is the react-refresh tag and the dev-client tag joined
by exactly one newline; with hot-reload disabled both components are empty
and the result is the one-character string `"\n"`, never the empty string. -/
theorem c10_hmr_client_newline (cfg : ViteConfig) :
    hmr_client cfg = generate_vite_react_hmr cfg ++ "\n" ++ generate_vite_ws_client cfg ∧
    (cfg.hot_reload = false → hmr_client cfg = "\n" ∧ hmr_client cfg ≠ "") := by
  refine ⟨rfl, fun h => ?_⟩
  have hr : generate_vite_react_hmr cfg = "" := by simp [generate_vite_react_hmr, h]
  have hw : generate_vite_ws_client cfg = "" := by simp [generate_vite_ws_client, h]
  have hm : hmr_client cfg = "\n" := by
    show strJoin "\n" [generate_vite_react_hmr cfg, generate_vite_ws_client cfg] = "\n"
    rw [hr, hw]
    rfl
  exact ⟨hm, by rw [hm]; decide⟩

/-- Witness for C10: the production config returns exactly `"\n"`. -/
theorem c10_hmr_client_newline_witness :
    hmr_client cfgProd = "\n" ∧ hmr_client cfgProd ≠ "" :=
  (c10_hmr_client_newline cfgProd).2 rfl

/-- C3 (behaviour of the code as written): with hot-reload enabled
`parse_manifest` returns the empty mapping without consulting the file; with
hot-reload disabled, a missing/unreadable manifest file raises the I/O error
unwrapped (`Path.open` sits outside the `try` block, so no `RuntimeError` is
raised there, contradicting both the claim and the function's docstring),
invalid JSON raises the wrapping `RuntimeError`, and valid JSON yields the
parsed mapping. -/
theorem c3_parse_manifest_behaviour (cfg : ViteConfig) (env : FsEnv) :
    (cfg.hot_reload = true → parse_manifest cfg env = .ok []) ∧
    (cfg.hot_reload = false → env.manifest_file = none →
      parse_manifest cfg env = .error .osError) ∧
    (cfg.hot_reload = false → ∀ s, env.manifest_file = some s → env.json_loads s = none →
      parse_manifest cfg env = .error .runtimeError) ∧
    (cfg.hot_reload = false → ∀ s m0, env.manifest_file = some s → env.json_loads s = some m0 →
      parse_manifest cfg env = .ok m0) :=
  ⟨fun h => by simp [parse_manifest, h],
   fun h h2 => by simp [parse_manifest, h, h2],
   fun h s h2 h3 => by simp [parse_manifest, h, h2, h3],
   fun h s m0 h2 h3 => by simp [parse_manifest, h, h2, h3]⟩

/-- Witness for C3: the four cases at concrete environments; the second
conjunct evaluates the code at the failing input of the claim (production
mode, manifest file missing) and exhibits the unwrapped I/O error. -/
theorem c3_parse_manifest_behaviour_witness :
    parse_manifest cfgDev envMissing = .ok [] ∧
    parse_manifest cfgProd envMissing = .error .osError ∧
    parse_manifest cfgProd envBad = .error .runtimeError ∧
    parse_manifest cfgProd envGood = .ok [] :=
  ⟨(c3_parse_manifest_behaviour cfgDev envMissing).1 rfl,
   (c3_parse_manifest_behaviour cfgProd envMissing).2.1 rfl rfl,
   (c3_parse_manifest_behaviour cfgProd envBad).2.2.1 rfl "not json" rfl rfl,
   (c3_parse_manifest_behaviour cfgProd envGood).2.2.2 rfl "\x7b\x7d" [] rfl rfl⟩

/-- Passing no attribute overrides behaves like passing the defaults: both
are normalized to `defaultScriptAttrs` before use. -/
theorem gen_attrs_none_default (cfg : ViteConfig) (m : Manifest) (f : Nat) (p : String) :
    generate_vite_asset cfg m f p none =
      generate_vite_asset cfg m f p (some defaultScriptAttrs) := by
  cases f with
  | zero => rfl
  | succ f => rfl

/-- Passing an empty attribute-override dict (falsy in Python) behaves like
passing the defaults. -/
theorem gen_attrs_empty_default (cfg : ViteConfig) (m : Manifest) (f : Nat) (p : String) :
    generate_vite_asset cfg m f p (some []) =
      generate_vite_asset cfg m f p (some defaultScriptAttrs) := by
  cases f with
  | zero => rfl
  | succ f => rfl

/-- Normalizing the attribute overrides (the source's defaulting of falsy
`scripts_attrs`) does not change the result of `generate_vite_asset`. -/
theorem gen_attrs_norm (cfg : ViteConfig) (m : Manifest) (f : Nat) (p : String)
    (sa : Option (List (String × String))) :
    generate_vite_asset cfg m f p (if attrsFalsy sa then some defaultScriptAttrs else sa) =
      generate_vite_asset cfg m f p sa := by
  cases sa with
  | none => exact (gen_attrs_none_default cfg m f p).symm
  | some l =>
    cases l with
    | nil => exact (gen_attrs_empty_default cfg m f p).symm
    | cons a t => rfl

/-- C1 (amended): in manifest mode, `generate_vite_asset` agrees with the
claim's description of the tag list — css link tags, then the recursively
generated tags of the imports in list order (depth-first pre-order, not
deduplicated, with the same attribute overrides), then the entry's own script
tag — with the attribute overrides applied to the script tags when provided
and non-empty, else the defaults (`generateAssetTagsAmended`). -/
theorem c1_manifest_mode_tags (cfg : ViteConfig) (m : Manifest)
    (hcfg : cfg.hot_reload = false) :
    ∀ (f : Nat) (p : String) (sa : Option (List (String × String))),
      generateAssetTagsAmended cfg m f p sa = generate_vite_asset cfg m f p sa := by
  intro f
  induction f with
  | zero => intro p sa; rfl
  | succ f ih =>
    intro p sa
    simp only [generateAssetTagsAmended, generate_vite_asset, hcfg, Bool.false_eq_true,
      if_false]
    cases hl : manifestLookup m p with
    | none => rfl
    | some entry =>
      dsimp only
      have hcong : mapExcept (fun ip => generateAssetTagsAmended cfg m f ip sa)
            (entry.imports.getD []) =
          mapExcept (fun ip => generate_vite_asset cfg m f ip
            (if attrsFalsy sa then some defaultScriptAttrs else sa)) (entry.imports.getD []) :=
        mapExcept_congr (fun i _ => (ih i sa).trans (gen_attrs_norm cfg m f i sa).symm)
      rw [hcong]

/-- Witness for C1 on the diamond-shaped import graph: `top.js` imports
`l.js` and `r.js`, both importing `shared.js`, whose tags therefore appear
twice. -/
theorem c1_manifest_mode_tags_witness :
    cfgProd.hot_reload = false ∧
    generateAssetTagsAmended cfgProd mDiamond 3 "top.js" none =
      generate_vite_asset cfgProd mDiamond 3 "top.js" none :=
  ⟨rfl, c1_manifest_mode_tags cfgProd mDiamond rfl 3 "top.js" none⟩

/-- Counterexample to C1 as stated: with an explicitly provided empty
attribute-override dict (`scripts_attrs = {}`), the code treats the overrides
as absent (Python truthiness) and emits the default attributes, while the
claim's words ("the given attribute overrides if provided") would emit a
script tag with no attributes. -/
theorem c1_manifest_mode_tags_counterexample :
    generate_vite_asset cfgProd mC1 1 "main.js" (some []) =
      .ok "<script type=\"module\" async=\"\" defer=\"\" src=\"/static/x.js\"></script>" ∧
    generateAssetTagsClaimed cfgProd mC1 1 "main.js" (some []) =
      .ok "<script  src=\"/static/x.js\"></script>" ∧
    generate_vite_asset cfgProd mC1 1 "main.js" (some []) ≠
      generateAssetTagsClaimed cfgProd mC1 1 "main.js" (some []) := by
  refine ⟨rfl, rfl, ?_⟩
  intro h
  rw [show generate_vite_asset cfgProd mC1 1 "main.js" (some []) =
      .ok "<script type=\"module\" async=\"\" defer=\"\" src=\"/static/x.js\"></script>" from rfl,
    show generateAssetTagsClaimed cfgProd mC1 1 "main.js" (some []) =
      .ok "<script  src=\"/static/x.js\"></script>" from rfl] at h
  injection h with h2
  exact absurd h2 (by decide)

/-- Replacing the function of `mapExcept` by one that agrees on every element
that does not run out of fuel preserves the result, provided the overall run
did not run out of fuel. -/
theorem mapExcept_congr_of_ne {α β : Type} {f g : α → Except GenError β} :
    ∀ {l : List α}, (∀ x ∈ l, f x ≠ .error .outOfFuel → g x = f x) →
      mapExcept f l ≠ .error .outOfFuel → mapExcept g l = mapExcept f l := by
  intro l
  induction l with
  | nil => intro _ _; rfl
  | cons x rest ih =>
    intro h hne
    simp only [mapExcept] at hne ⊢
    cases hfx : f x with
    | error e =>
      rw [hfx] at hne
      dsimp only at hne
      have he2 : e ≠ GenError.outOfFuel := fun h3 => hne (by rw [h3])
      rw [h x (List.mem_cons_self x rest)
        (by rw [hfx]; exact fun hc => he2 (Except.error.inj hc)), hfx]
    | ok y =>
      rw [hfx] at hne
      dsimp only at hne
      have hx : f x ≠ Except.error GenError.outOfFuel := by
        rw [hfx]; exact fun hc => Except.noConfusion hc
      rw [h x (List.mem_cons_self x rest) hx, hfx]
      cases hrest : mapExcept f rest with
      | error e =>
        rw [hrest] at hne
        dsimp only at hne
        rw [ih (fun z hz hz2 => h z (List.mem_cons_of_mem x hz) hz2)
          (by rw [hrest]; exact hne), hrest]
      | ok ys =>
        rw [ih (fun z hz hz2 => h z (List.mem_cons_of_mem x hz) hz2)
          (by rw [hrest]; exact fun hc => Except.noConfusion hc), hrest]

/-- If no element produces a not-found error and some element runs out of
fuel, the whole `mapExcept` run reports fuel exhaustion. -/
theorem mapExcept_err_of_mem {α β : Type} {f : α → Except GenError β} :
    ∀ {l : List α}, (∀ x ∈ l, ∀ s, f x ≠ .error (.notFound s)) →
      ∀ {x0 : α}, x0 ∈ l → f x0 = .error .outOfFuel →
      mapExcept f l = .error .outOfFuel := by
  intro l
  induction l with
  | nil => intro _ x0 hmem _; exact absurd hmem (List.not_mem_nil x0)
  | cons x rest ih =>
    intro h x0 hmem hf
    rcases List.mem_cons.mp hmem with rfl | hmem2
    · simp only [mapExcept]
      rw [hf]
    · simp only [mapExcept]
      cases hfx : f x with
      | error e =>
        cases e with
        | notFound s => exact absurd hfx (h x (List.mem_cons_self x rest) s)
        | outOfFuel => rfl
      | ok y =>
        rw [ih (fun z hz s => h z (List.mem_cons_of_mem x hz) s) hmem2 hf]

/-- One unfolding step of `generate_vite_asset` in manifest mode when the
path is absent from the manifest. -/
theorem gen_unfold_notfound (cfg : ViteConfig) (m : Manifest) (hcfg : cfg.hot_reload = false)
    (f : Nat) (p : String) (hl : manifestLookup m p = none)
    (sa : Option (List (String × String))) :
    generate_vite_asset cfg m (f + 1) p sa = .error (.notFound p) := by
  simp [generate_vite_asset, hcfg, hl]

/-- One unfolding step of `generate_vite_asset` in manifest mode when the
path has a manifest entry. -/
theorem gen_unfold_entry (cfg : ViteConfig) (m : Manifest) (hcfg : cfg.hot_reload = false)
    (f : Nat) (p : String) (entry : ManifestEntry) (hl : manifestLookup m p = some entry)
    (sa : Option (List (String × String))) :
    generate_vite_asset cfg m (f + 1) p sa =
      match mapExcept (fun ip => generate_vite_asset cfg m f ip
          (if attrsFalsy sa then some defaultScriptAttrs else sa)) (entry.imports.getD []) with
      | .error e => .error e
      | .ok importTags =>
        .ok (strJoin "\n" ((entry.css.getD []).map (fun q => style_tag (urljoin cfg.static_url q))
          ++ importTags ++ [script_tag (urljoin cfg.static_url entry.file)
            (if attrsFalsy sa then some defaultScriptAttrs else sa)])) := by
  conv_lhs => rw [generate_vite_asset]
  simp only [hcfg, Bool.false_eq_true, if_false, hl]

/-- A `generate_vite_asset` run that does not exhaust its fuel computes the
same result with one more unit of fuel. -/
theorem gen_succ_of_ne (cfg : ViteConfig) (m : Manifest) :
    ∀ (f : Nat) (p : String) (sa : Option (List (String × String))),
      generate_vite_asset cfg m f p sa ≠ .error .outOfFuel →
      generate_vite_asset cfg m (f + 1) p sa = generate_vite_asset cfg m f p sa := by
  intro f
  induction f with
  | zero => intro p sa h; exact absurd rfl h
  | succ f ih =>
    intro p sa h
    cases hhot : cfg.hot_reload with
    | true => simp [generate_vite_asset, hhot]
    | false =>
      cases hl : manifestLookup m p with
      | none =>
        rw [gen_unfold_notfound cfg m hhot (f + 1) p hl sa,
          gen_unfold_notfound cfg m hhot f p hl sa]
      | some entry =>
        rw [gen_unfold_entry cfg m hhot (f + 1) p entry hl sa,
          gen_unfold_entry cfg m hhot f p entry hl sa]
        have hm : mapExcept (fun ip => generate_vite_asset cfg m f ip
            (if attrsFalsy sa then some defaultScriptAttrs else sa)) (entry.imports.getD []) ≠
            Except.error GenError.outOfFuel := by
          intro hc
          apply h
          rw [gen_unfold_entry cfg m hhot f p entry hl sa, hc]
        have hcong := mapExcept_congr_of_ne
          (fun i _ hi => ih i (if attrsFalsy sa then some defaultScriptAttrs else sa) hi) hm
        rw [hcong]

/-- Fuel monotonicity: once a run finishes without exhausting its fuel, any
larger fuel gives the same result. -/
theorem gen_mono (cfg : ViteConfig) (m : Manifest) {f g : Nat} (hfg : f ≤ g)
    (p : String) (sa : Option (List (String × String)))
    (h : generate_vite_asset cfg m f p sa ≠ .error .outOfFuel) :
    generate_vite_asset cfg m g p sa = generate_vite_asset cfg m f p sa := by
  induction hfg with
  | refl => rfl
  | step h2 ih => exact (gen_succ_of_ne cfg m _ p sa (by rw [ih]; exact h)).trans ih

/-- A finite list of paths that each terminate for some fuel admits one
common fuel bound that works for all of them. -/
theorem exists_common_fuel (cfg : ViteConfig) (m : Manifest) :
    ∀ (l : List String),
      (∀ i ∈ l, ∃ f, ∀ sa, generate_vite_asset cfg m f i sa ≠ .error .outOfFuel) →
      ∃ F, ∀ i ∈ l, ∀ sa, generate_vite_asset cfg m F i sa ≠ .error .outOfFuel := by
  intro l
  induction l with
  | nil => intro _; exact ⟨0, by simp⟩
  | cons x rest ih =>
    intro h
    obtain ⟨fx, hfx⟩ := h x (List.mem_cons_self x rest)
    obtain ⟨Fr, hFr⟩ := ih (fun i hi => h i (List.mem_cons_of_mem x hi))
    refine ⟨max fx Fr, ?_⟩
    intro i hi sa
    rcases List.mem_cons.mp hi with rfl | hi2
    · rw [gen_mono cfg m (Nat.le_max_left fx Fr) i sa (hfx sa)]
      exact hfx sa
    · rw [gen_mono cfg m (Nat.le_max_right fx Fr) i sa (hFr i hi2 sa)]
      exact hFr i hi2 sa

/-- A successful manifest lookup comes from a pair of the association list. -/
theorem mem_of_manifestLookup : ∀ {m : Manifest} {k : String} {e : ManifestEntry},
    manifestLookup m k = some e → (k, e) ∈ m := by
  intro m
  induction m with
  | nil => intro k e h; exact Option.noConfusion h
  | cons kv rest ih =>
    intro k e h
    obtain ⟨k2, e2⟩ := kv
    by_cases hk : k2 = k
    · subst hk
      simp only [manifestLookup, if_pos rfl] at h
      injection h with he
      subst he
      exact List.mem_cons_self _ _
    · simp only [manifestLookup, if_neg hk] at h
      exact List.mem_cons_of_mem _ (ih h)

/-- The target of an import-graph edge occurs in some entry's imports list. -/
theorem mem_allImports_of_edge {m : Manifest} {a b : String} (h : Edge m a b) :
    b ∈ allImports m := by
  obtain ⟨e, hl, hb⟩ := h
  exact List.mem_flatMap.mpr ⟨(a, e), mem_of_manifestLookup hl, hb⟩

/-- Everything reachable from `p` in the import graph is `p` itself or an
entry's import string. -/
theorem reaches_mem {m : Manifest} {p q : String} (h : Reaches m p q) :
    q = p ∨ q ∈ allImports m := by
  have h2 : Relation.ReflTransGen (Edge m) p q := h
  induction h2 with
  | refl => exact Or.inl rfl
  | tail hab hbc ih => exact Or.inr (mem_allImports_of_edge hbc)

/-- The set of keys reachable from `p` in the import graph is finite. -/
theorem reachesSet_finite (m : Manifest) (p : String) : {q | Reaches m p q}.Finite := by
  apply Set.Finite.subset (List.finite_toSet (p :: allImports m))
  intro q hq
  rcases reaches_mem hq with h | h
  · exact List.mem_cons.mpr (Or.inl h)
  · exact List.mem_cons.mpr (Or.inr h)

/-- When no import cycle is reachable from `p`, following an import edge is a
well-founded descent on the keys reachable from `p`. -/
theorem edge_inv_wf {m : Manifest} {p : String} (hac : AcyclicFrom m p) :
    WellFounded (fun a b : {q // Reaches m p q} => Edge m b.1 a.1) := by
  haveI hfin : Finite {q // Reaches m p q} := (reachesSet_finite m p).to_subtype
  haveI : IsTrans {q // Reaches m p q} (fun a b => Relation.TransGen (Edge m) b.1 a.1) :=
    ⟨fun a b c hab hbc => Relation.TransGen.trans hbc hab⟩
  haveI : IsIrrefl {q // Reaches m p q} (fun a b => Relation.TransGen (Edge m) b.1 a.1) :=
    ⟨fun a haa => hac a.1 a.2 haa⟩
  exact Subrelation.wf (fun hab => Relation.TransGen.single hab)
    (Finite.wellFounded_of_trans_of_irrefl
      (fun a b : {q // Reaches m p q} => Relation.TransGen (Edge m) b.1 a.1))

/-- Acyclicity of the reachable import graph makes the recursive expansion
terminate: some fuel suffices. -/
theorem gen_terminates_of_acyclic (cfg : ViteConfig) (m : Manifest)
    (hcfg : cfg.hot_reload = false) (p : String) (hac : AcyclicFrom m p) :
    ∃ f, ∀ sa, generate_vite_asset cfg m f p sa ≠ .error .outOfFuel := by
  have main : ∀ v : {q // Reaches m p q},
      ∃ f, ∀ sa, generate_vite_asset cfg m f v.1 sa ≠ .error .outOfFuel := by
    intro v
    refine @WellFounded.induction _ _ (edge_inv_wf hac)
      (fun v => ∃ f, ∀ sa, generate_vite_asset cfg m f v.1 sa ≠ Except.error GenError.outOfFuel)
      v ?_
    intro x ih
    cases hl : manifestLookup m x.1 with
    | none =>
      refine ⟨1, fun sa => ?_⟩
      rw [gen_unfold_notfound cfg m hcfg 0 x.1 hl sa]
      exact fun hc => GenError.noConfusion (Except.error.inj hc)
    | some entry =>
      have himp : ∀ i ∈ entry.imports.getD [],
          ∃ f, ∀ sa, generate_vite_asset cfg m f i sa ≠ .error .outOfFuel := by
        intro i hi
        exact ih ⟨i, Relation.ReflTransGen.tail x.2 ⟨entry, hl, hi⟩⟩ ⟨entry, hl, hi⟩
      obtain ⟨F, hF⟩ := exists_common_fuel cfg m (entry.imports.getD []) himp
      refine ⟨F + 1, fun sa => ?_⟩
      rw [gen_unfold_entry cfg m hcfg F x.1 entry hl sa]
      cases hm : mapExcept (fun ip => generate_vite_asset cfg m F ip
          (if attrsFalsy sa then some defaultScriptAttrs else sa)) (entry.imports.getD []) with
      | error e =>
        dsimp only
        intro hc
        injection hc with he
        exact mapExcept_ne_error (fun i hi => hF i hi _) (by rw [hm, he])
      | ok t => exact fun hc => Except.noConfusion hc
  exact main ⟨p, Relation.ReflTransGen.refl⟩

/-- Under the manifest invariant (every import is a key), the expansion
started at a key never reports a not-found error: it either succeeds or runs
out of fuel. -/
theorem gen_no_notfound (cfg : ViteConfig) (m : Manifest) (hcfg : cfg.hot_reload = false)
    (hwf : ImportsClosed m) :
    ∀ (f : Nat) (q : String), (manifestLookup m q).isSome = true →
      ∀ (sa : Option (List (String × String))) (s : String),
        generate_vite_asset cfg m f q sa ≠ .error (.notFound s) := by
  intro f
  induction f with
  | zero =>
    intro q _ sa s hc
    exact GenError.noConfusion (Except.error.inj hc)
  | succ f ih =>
    intro q hq sa s
    obtain ⟨entry, he⟩ := Option.isSome_iff_exists.mp hq
    rw [gen_unfold_entry cfg m hcfg f q entry he sa]
    cases hm : mapExcept (fun ip => generate_vite_asset cfg m f ip
        (if attrsFalsy sa then some defaultScriptAttrs else sa)) (entry.imports.getD []) with
    | error e =>
      dsimp only
      intro hc
      injection hc with he2
      exact mapExcept_ne_error
        (fun i hi => ih i (hwf q entry he i hi) _ s) (by rw [hm, he2])
    | ok t => exact fun hc => Except.noConfusion hc

/-- Under the manifest invariant, a key lying on an import cycle exhausts any
amount of fuel: the Python original would recurse forever. -/
theorem gen_cycle_stuck (cfg : ViteConfig) (m : Manifest) (hcfg : cfg.hot_reload = false)
    (hwf : ImportsClosed m) :
    ∀ (f : Nat) (q : String) (sa : Option (List (String × String))),
      Relation.TransGen (Edge m) q q →
      generate_vite_asset cfg m f q sa = .error .outOfFuel := by
  intro f
  induction f with
  | zero => intro q sa _; rfl
  | succ f ih =>
    intro q sa hcyc
    obtain ⟨q1, hq1, hrest⟩ := Relation.TransGen.head'_iff.mp hcyc
    obtain ⟨entry, he, hq1mem⟩ := hq1
    have hcyc1 : Relation.TransGen (Edge m) q1 q1 :=
      Relation.TransGen.tail' hrest ⟨entry, he, hq1mem⟩
    rw [gen_unfold_entry cfg m hcfg f q entry he sa]
    rw [mapExcept_err_of_mem
      (fun i hi s => gen_no_notfound cfg m hcfg hwf f i (hwf q entry he i hi) _ s)
      hq1mem (ih q1 (if attrsFalsy sa then some defaultScriptAttrs else sa) hcyc1)]

/-- Under the manifest invariant, a key from which an import cycle is
reachable exhausts any amount of fuel. -/
theorem gen_cycle_reachable (cfg : ViteConfig) (m : Manifest) (hcfg : cfg.hot_reload = false)
    (hwf : ImportsClosed m) (p : String) (hcy : CycleReachableFrom m p) :
    ∀ (f : Nat) (sa : Option (List (String × String))),
      generate_vite_asset cfg m f p sa = .error .outOfFuel := by
  obtain ⟨q, hreach, hcyc⟩ := hcy
  have hr : Relation.ReflTransGen (Edge m) p q := hreach
  clear hreach
  induction hr using Relation.ReflTransGen.head_induction_on with
  | refl => exact fun f sa => gen_cycle_stuck cfg m hcfg hwf f q sa hcyc
  | head hab hbq ih =>
    intro f sa
    cases f with
    | zero => rfl
    | succ f =>
      obtain ⟨entry, he, hbmem⟩ := hab
      rw [gen_unfold_entry cfg m hcfg f _ entry he sa]
      rw [mapExcept_err_of_mem
        (fun i hi s => gen_no_notfound cfg m hcfg hwf f i (hwf _ entry he i hi) _ s)
        hbmem (ih f (if attrsFalsy sa then some defaultScriptAttrs else sa))]

/-- C6: in manifest mode, when the import graph reachable from the queried
key is acyclic the recursive expansion terminates (some fuel bound suffices
for every attribute override); and, under the specification's manifest
invariant that every import is itself a key, a reachable import cycle makes
the expansion exhaust every fuel bound — the unguarded Python recursion would
recurse indefinitely. -/
theorem c6_recursion_termination (cfg : ViteConfig) (m : Manifest) (p : String)
    (hcfg : cfg.hot_reload = false) :
    (AcyclicFrom m p → ∃ f, ∀ sa, generate_vite_asset cfg m f p sa ≠ .error .outOfFuel) ∧
    (ImportsClosed m → CycleReachableFrom m p →
      ∀ f sa, generate_vite_asset cfg m f p sa = .error .outOfFuel) :=
  ⟨fun hac => gen_terminates_of_acyclic cfg m hcfg p hac,
   fun hwf hcy => gen_cycle_reachable cfg m hcfg hwf p hcy⟩

/-- The single-entry manifest without imports has no import edge at all, so
nothing reachable lies on a cycle. -/
theorem mAcy_acyclic : AcyclicFrom mAcy "a.js" := by
  intro q _ hcyc
  obtain ⟨q1, hq1, -⟩ := Relation.TransGen.head'_iff.mp hcyc
  have hmem := mem_allImports_of_edge hq1
  rw [show allImports mAcy = [] from rfl] at hmem
  exact absurd hmem (List.not_mem_nil q1)

/-- The self-importing manifest has the edge from its key to itself. -/
theorem mCyc_edge : Edge mCyc "a.js" "a.js" :=
  ⟨{ file := "assets/a.js", imports := some ["a.js"] }, rfl, List.mem_cons_self _ _⟩

/-- The self-importing manifest satisfies the invariant: its only import is
its only key. -/
theorem mCyc_closed : ImportsClosed mCyc := by
  intro k e he i hi
  by_cases hk : "a.js" = k
  · subst hk
    injection he with h2
    subst h2
    simp only [Option.getD] at hi
    rcases List.mem_cons.mp hi with rfl | h3
    · rfl
    · exact absurd h3 (List.not_mem_nil i)
  · exfalso
    rw [show manifestLookup mCyc k = if "a.js" = k then
        some { file := "assets/a.js", imports := some ["a.js"] } else none from rfl,
      if_neg hk] at he
    exact Option.noConfusion he

/-- The self-import cycle of `mCyc` is reachable from its key. -/
theorem mCyc_cycle : CycleReachableFrom mCyc "a.js" :=
  ⟨"a.js", Relation.ReflTransGen.refl, Relation.TransGen.single mCyc_edge⟩

/-- Witness for C6: the acyclic one-entry manifest terminates; the
self-importing manifest exhausts the concrete fuel bound 5. -/
theorem c6_recursion_termination_witness :
    cfgProd.hot_reload = false ∧
    (∃ f, ∀ sa, generate_vite_asset cfgProd mAcy f "a.js" sa ≠ .error .outOfFuel) ∧
    generate_vite_asset cfgProd mCyc 5 "a.js" none = .error .outOfFuel :=
  ⟨rfl, (c6_recursion_termination cfgProd mAcy "a.js" rfl).1 mAcy_acyclic,
    (c6_recursion_termination cfgProd mCyc "a.js" rfl).2 mCyc_closed mCyc_cycle 5 none⟩
